import Mathlib

/-
Verification of the esphome-stream-server component binding
(src/components/stream_server/__init__.py) and of the runtime bridge
described by its design specification.

The Python module is configuration glue over ESPHome's config-validation
combinators (`cv.All`, `cv.Schema`, `cv.Optional`, `cv.port`,
`cv.require_esphome_version`) plus a code-generation hook `to_code`.
We embed the module shallowly: configurations are association lists from
string keys to values, validators are functions returning `Except`, and
`to_code` returns the list of code-generation actions it emits.
The ESPHome combinators themselves are not part of this repository; they
are modelled here with their documented semantics (a schema rejects
unknown keys, fills optional defaults, `cv.port` accepts an integer
port in 1..65535, `cv.require_esphome_version` rejects configurations
when the installed framework version is older than the required one),
which is also how the specification describes them.
-/

namespace StreamServer

/-- A configuration value: an integer or a string (identifiers are strings). -/
inductive ConfigValue where
  | int (n : Int)
  | str (s : String)
  deriving DecidableEq, Repr

/-- A configuration block: an association list from keys to values. -/
abbrev Config := List (String × ConfigValue)

/-- Errors raised at config time by validation. -/
inductive ConfigError where
  | versionTooOld
  | unknownKey (k : String)
  | invalidPort
  | invalidId
  | multipleInstancesForbidden
  deriving DecidableEq, Repr

/-- An ESPHome framework version, `major.minor.patch`. -/
structure Version where
  major : Nat
  minor : Nat
  patch : Nat
  deriving DecidableEq, Repr

/-- `versionBelow a b` holds when version `a` is strictly older than `b`
(lexicographic on major, minor, patch). -/
def versionBelow (a b : Version) : Bool :=
  decide (a.major < b.major) ||
    (decide (a.major = b.major) &&
      (decide (a.minor < b.minor) ||
        (decide (a.minor = b.minor) && decide (a.patch < b.patch))))

/-- `versionAtLeast a b`: version `a` is `b` or newer. -/
def versionAtLeast (a b : Version) : Prop :=
  b.major < a.major ∨
    (b.major = a.major ∧ (b.minor < a.minor ∨ (b.minor = a.minor ∧ b.patch ≤ a.patch)))

instance (a b : Version) : Decidable (versionAtLeast a b) := by
  unfold versionAtLeast
  infer_instance

/-- From `esphome.const`: the `id` configuration key. -/
def CONF_ID : String := "id"

/-- From `esphome.const`: the `port` configuration key. -/
def CONF_PORT : String := "port"

/-- From `esphome.const`: the `setup_priority` key contributed by
`cv.COMPONENT_SCHEMA`. -/
def CONF_SETUP_PRIORITY : String := "setup_priority"

/-- `cv.require_esphome_version(req)` as a validator: given the installed
framework version, it rejects every configuration when the installed
version is older than `req`, and passes the configuration through
unchanged otherwise. -/
def require_esphome_version (req installed : Version) (cfg : Config) :
    Except ConfigError Config :=
  if versionBelow installed req then Except.error ConfigError.versionTooOld
  else Except.ok cfg

/-- One key of a `cv.Schema`: the key string, an optional default supplied
when the key is absent, and the validator applied to a supplied value. -/
structure SchemaEntry where
  key : String
  dflt : Option ConfigValue
  validate : ConfigValue → Except ConfigError ConfigValue

/-- `cv.declare_id(StreamServerComponent)`: accepts an identifier (a string). -/
def cv_declare_id : ConfigValue → Except ConfigError ConfigValue
  | ConfigValue.str s => Except.ok (ConfigValue.str s)
  | _ => Except.error ConfigError.invalidId

/-- `cv.port`: accepts an integer TCP port in 1..65535, rejects anything else. -/
def cv_port : ConfigValue → Except ConfigError ConfigValue
  | ConfigValue.int n =>
      if 1 ≤ n ∧ n ≤ 65535 then Except.ok (ConfigValue.int n)
      else Except.error ConfigError.invalidPort
  | _ => Except.error ConfigError.invalidPort

/-- First phase of `cv.Schema` validation: walk the supplied pairs; a key
with no schema entry is an unknown-key error, otherwise the entry's
validator is applied to the value. -/
def validateKeys (entries : List SchemaEntry) : Config → Except ConfigError Config
  | [] => Except.ok []
  | (k, v) :: rest =>
    match entries.find? (fun e => e.key == k) with
    | none => Except.error (ConfigError.unknownKey k)
    | some e =>
      match e.validate v with
      | Except.error err => Except.error err
      | Except.ok v2 =>
        match validateKeys entries rest with
        | Except.error err => Except.error err
        | Except.ok rest2 => Except.ok ((k, v2) :: rest2)

/-- Whether a configuration supplies key `k`. -/
def hasKey (cfg : Config) (k : String) : Bool :=
  cfg.any (fun p => p.1 == k)

/-- Second phase of `cv.Schema` validation: each schema entry that carries a
default and whose key was not supplied is appended with its default value. -/
def addDefaults (cfg : Config) : List SchemaEntry → Config
  | [] => cfg
  | e :: rest =>
    if hasKey cfg e.key then addDefaults cfg rest
    else
      match e.dflt with
      | some d => addDefaults (cfg ++ [(e.key, d)]) rest
      | none => addDefaults cfg rest

/-- `cv.Schema(...)` applied to a configuration: validate the supplied keys,
then fill in defaults. -/
def schemaValidate (entries : List SchemaEntry) (cfg : Config) :
    Except ConfigError Config :=
  match validateKeys entries cfg with
  | Except.error err => Except.error err
  | Except.ok out => Except.ok (addDefaults out entries)

/-- The identifier `cv.GenerateID()` generates when none is supplied. -/
def generatedId : String := "streamservercomponent_id"

/-- Line 21 of the source:
`cv.GenerateID(): cv.declare_id(StreamServerComponent)`. `cv.GenerateID()`
is an optional `id` key whose default is a generated identifier. -/
def idEntry : SchemaEntry :=
  ⟨CONF_ID, some (ConfigValue.str generatedId), cv_declare_id⟩

/-- Line 22 of the source: `cv.Optional(CONF_PORT, default=6638): cv.port`. -/
def portEntry : SchemaEntry :=
  ⟨CONF_PORT, some (ConfigValue.int 6638), cv_port⟩

/-- The key contributed by `.extend(cv.COMPONENT_SCHEMA)`: the standard
component schema's optional `setup_priority` key (no default; any value
accepted, its own validation being outside this component). -/
def setupEntry : SchemaEntry :=
  ⟨CONF_SETUP_PRIORITY, none, fun v => Except.ok v⟩

/-- `cv.COMPONENT_SCHEMA`, the standard component schema. -/
def COMPONENT_SCHEMA : List SchemaEntry := [setupEntry]

/-- The schema body of `CONFIG_SCHEMA`: the `id` and `port` keys, extended
with `cv.COMPONENT_SCHEMA`. -/
def streamServerSchema : List SchemaEntry :=
  idEntry :: portEntry :: COMPONENT_SCHEMA

/-- The minimum framework version required at line 18 of the source:
`cv.require_esphome_version(2022, 3, 0)`. -/
def minEsphomeVersion : Version := ⟨2022, 3, 0⟩

/-- `CONFIG_SCHEMA = cv.All(cv.require_esphome_version(2022, 3, 0),
cv.Schema({...}).extend(cv.COMPONENT_SCHEMA))`: `cv.All` applies its
validators left to right, stopping at the first error. The installed
framework version is threaded explicitly. -/
def CONFIG_SCHEMA (installed : Version) (cfg : Config) :
    Except ConfigError Config :=
  match require_esphome_version minEsphomeVersion installed cfg with
  | Except.error e => Except.error e
  | Except.ok c => schemaValidate streamServerSchema c

/-- Lookup of `config[k]`: the value of the first pair with key `k`. -/
def lookupKey (cfg : Config) (k : String) : Option ConfigValue :=
  match cfg.find? (fun p => p.1 == k) with
  | some p => some p.2
  | none => none

/-- One code-generation action emitted by `to_code`:
`cg.new_Pvariable(config[CONF_ID])`, `cg.add(var.set_port(...))`, or
`await cg.register_component(var, config)`. -/
inductive CodegenStep where
  | newPvariable (id : String)
  | addSetPort (id : String) (p : Int)
  | registerComponent (id : String)
  deriving DecidableEq, Repr

/-- Whether a code-generation action mutates the variable's port. -/
def CodegenStep.isSetPort : CodegenStep → Bool
  | CodegenStep.addSetPort _ _ => true
  | _ => false

/-- `to_code(config)`: reads `config[CONF_ID]` and `config[CONF_PORT]`
(`none` models the KeyError when a key is absent or ill-typed) and emits,
in order, the variable creation, the `set_port` call, and the component
registration. -/
def to_code (config : Config) : Option (List CodegenStep) :=
  match lookupKey config CONF_ID, lookupKey config CONF_PORT with
  | some (ConfigValue.str i), some (ConfigValue.int p) =>
      some [CodegenStep.newPvariable i, CodegenStep.addSetPort i p,
        CodegenStep.registerComponent i]
  | _, _ => none

/-- Line 7 of the source: `AUTO_LOAD = ["socket"]`. -/
def AUTO_LOAD : List String := ["socket"]

/-- Line 9 of the source: `DEPENDENCIES = ["network"]`. -/
def DEPENDENCIES : List String := ["network"]

/-- Line 11 of the source: `MULTI_CONF = True`. -/
def MULTI_CONF : Bool := true

/-- The components auto-loaded for a declared stream_server block. Modelled
from ESPHome semantics: the module-level `AUTO_LOAD` constant is consulted
per component module, independently of the block's configuration. -/
def autoLoadFor (_cfg : Config) : List String := AUTO_LOAD

/-- The components a declared stream_server block depends on. Modelled from
ESPHome semantics: the module-level `DEPENDENCIES` constant is consulted
per component module, independently of the block's configuration. -/
def dependenciesFor (_cfg : Config) : List String := DEPENDENCIES

/-- Validate every declared block of the component with `CONFIG_SCHEMA`,
left to right, stopping at the first error. -/
def validateAllBlocks (installed : Version) :
    List Config → Except ConfigError (List Config)
  | [] => Except.ok []
  | b :: rest =>
    match CONFIG_SCHEMA installed b with
    | Except.error e => Except.error e
    | Except.ok c =>
      match validateAllBlocks installed rest with
      | Except.error e => Except.error e
      | Except.ok cs => Except.ok (c :: cs)

/-- Modelled from the spec: the configuration loader (not part of this
repository) accepts more than one declared block for a component exactly
when the module sets `MULTI_CONF`; each accepted block is validated
independently by `CONFIG_SCHEMA`. -/
def loadBlocks (installed : Version) (blocks : List Config) :
    Except ConfigError (List Config) :=
  if MULTI_CONF || decide (blocks.length ≤ 1) then
    validateAllBlocks installed blocks
  else Except.error ConfigError.multipleInstancesForbidden

/-
Runtime bridge (spec sections 4.3, 4.4, 8). The C++ runtime of this
repository is not among the provided sources; the following definitions are
modelled from the spec and concern the serial-to-network direction that
claim C7 is about: per tick the scheduler reads the available serial bytes
and appends them verbatim to every Active client's bounded outbound queue
(dropping oldest bytes on overflow, ring-buffer semantics), then flushes
part of each outbound queue to the client's socket (partial sends leave the
remainder queued).
-/

/-- Modelled from the spec: a TCP client as C7 sees it, with its bounded
outbound queue and the stream of bytes already delivered to its socket. -/
structure Client where
  outbound : List Nat
  received : List Nat
  deriving DecidableEq, Repr

/-- A freshly accepted client: nothing queued, nothing delivered. -/
def emptyClient : Client := ⟨[], []⟩

/-- Modelled from the spec (4.4 step 2 with the 4.3 overflow policy): append
the tick's serial bytes to the outbound queue, then keep only the newest
`cap` bytes (oldest are dropped when the queue would exceed capacity). -/
def enqueueOutbound (cap : Nat) (chunk : List Nat) (c : Client) : Client :=
  let q := c.outbound ++ chunk
  { c with outbound := q.drop (q.length - cap) }

/-- Modelled from the spec (4.4 step 4): flush up to `n` queued bytes to the
socket; the remainder stays queued for the next tick. -/
def flushOutbound (n : Nat) (c : Client) : Client :=
  ⟨c.outbound.drop n, c.received ++ c.outbound.take n⟩

/-- One scheduler tick as seen by one client: broadcast of the serial chunk,
then a (possibly partial) socket send of `n` bytes. -/
def clientTick (cap : Nat) (chunk : List Nat) (n : Nat) (c : Client) : Client :=
  flushOutbound n (enqueueOutbound cap chunk c)

/-- A run of ticks for one client: each tick carries the serial chunk read
that tick and how many bytes that client's socket accepted. -/
def runClient (cap : Nat) : List (List Nat × Nat) → Client → Client
  | [], c => c
  | (chunk, n) :: rest, c => runClient cap rest (clientTick cap chunk n c)

/-- The no-outbound-overflow assumption of C7 for one client: at every tick
the enqueued chunk still fits the queue capacity, so the ring buffer never
drops a byte. -/
def noOverflow (cap : Nat) : List (List Nat × Nat) → Client → Bool
  | [], _ => true
  | (chunk, n) :: rest, c =>
    decide (c.outbound.length + chunk.length ≤ cap) &&
      noOverflow cap rest (clientTick cap chunk n c)

/-- One scheduler tick over all `N` active clients: the same serial chunk is
broadcast to every client; each client's socket accepts its own number of
bytes. -/
def bridgeTick (cap N : Nat) (chunk : List Nat) (sends : Fin N → Nat)
    (clients : Fin N → Client) : Fin N → Client :=
  fun i => clientTick cap chunk (sends i) (clients i)

/-- A run of the bridge scheduler over `N` active clients. -/
def runBridge (cap N : Nat) :
    List (List Nat × (Fin N → Nat)) → (Fin N → Client) → Fin N → Client
  | [], cs => cs
  | (chunk, sends) :: rest, cs =>
      runBridge cap N rest (bridgeTick cap N chunk sends cs)

/-- The run as client `i` experiences it. -/
def projectRun (N : Nat) (run : List (List Nat × (Fin N → Nat))) (i : Fin N) :
    List (List Nat × Nat) :=
  run.map (fun t => (t.1, t.2 i))

/-- The byte sequence S read from the UART over a run of one client. -/
def serialStream (run : List (List Nat × Nat)) : List Nat :=
  (run.map Prod.fst).flatten

/-- The byte sequence S read from the UART over a run of the bridge. -/
def bridgeSerial (N : Nat) (run : List (List Nat × (Fin N → Nat))) : List Nat :=
  (run.map Prod.fst).flatten

/-- A concrete two-client, two-tick run used to evaluate the bridge model:
the serial line yields bytes 1, 2 then byte 3; each client's socket accepts
one byte the first tick and two the second. -/
def demoRun : List (List Nat × (Fin 2 → Nat)) :=
  [([1, 2], fun _ => 1), ([3], fun _ => 2)]

/-
Helper lemmas about the embedded validation pipeline.
-/

theorem versionBelow_false_iff (a b : Version) :
    versionBelow a b = false ↔ versionAtLeast a b := by
  unfold versionBelow versionAtLeast
  simp only [Bool.or_eq_false_iff, Bool.and_eq_false_imp, Bool.or_eq_false_iff,
    decide_eq_false_iff_not, decide_eq_true_eq, not_lt]
  omega

theorem validateKeys_mem_entry (entries : List SchemaEntry) :
    ∀ cfg out, validateKeys entries cfg = Except.ok out →
      ∀ k v, (k, v) ∈ cfg →
        ∃ e, entries.find? (fun x => x.key == k) = some e ∧
          ∃ v2, e.validate v = Except.ok v2 := by
  intro cfg
  induction cfg with
  | nil =>
    intro out _ k v hm
    simp at hm
  | cons p rest ih =>
    intro out h k v hm
    obtain ⟨k0, v0⟩ := p
    unfold validateKeys at h
    split at h
    · cases h
    next e heq =>
      split at h
      · cases h
      next v2 heq2 =>
        split at h
        · cases h
        next rest2 heq3 =>
          rcases List.mem_cons.mp hm with heq0 | hmem
          · injection heq0 with h1 h2
            subst h1; subst h2
            exact ⟨e, heq, v2, heq2⟩
          · exact ih rest2 heq3 k v hmem

theorem validateKeys_out_entry (entries : List SchemaEntry) :
    ∀ cfg out, validateKeys entries cfg = Except.ok out →
      ∀ k v2, (k, v2) ∈ out →
        ∃ e, entries.find? (fun x => x.key == k) = some e ∧
          ∃ v, e.validate v = Except.ok v2 := by
  intro cfg
  induction cfg with
  | nil =>
    intro out h k v2 hm
    unfold validateKeys at h
    injection h with h2
    subst h2
    simp at hm
  | cons p rest ih =>
    intro out h k v2 hm
    obtain ⟨k0, v0⟩ := p
    unfold validateKeys at h
    split at h
    · cases h
    next e heq =>
      split at h
      · cases h
      next w heq2 =>
        split at h
        · cases h
        next rest2 heq3 =>
          injection h with h2
          subst h2
          rcases List.mem_cons.mp hm with heq0 | hmem
          · injection heq0 with h1 h2
            subst h1; subst h2
            exact ⟨e, heq, v0, heq2⟩
          · exact ih rest2 heq3 k v2 hmem

theorem validateKeys_map_fst (entries : List SchemaEntry) :
    ∀ cfg out, validateKeys entries cfg = Except.ok out →
      out.map Prod.fst = cfg.map Prod.fst := by
  intro cfg
  induction cfg with
  | nil =>
    intro out h
    unfold validateKeys at h
    injection h with h2
    subst h2
    rfl
  | cons p rest ih =>
    intro out h
    obtain ⟨k0, v0⟩ := p
    unfold validateKeys at h
    split at h
    · cases h
    next e heq =>
      split at h
      · cases h
      next w heq2 =>
        split at h
        · cases h
        next rest2 heq3 =>
          injection h with h2
          subst h2
          simp [ih rest2 heq3]

theorem hasKey_append_left (cfg cfg2 : Config) (k : String)
    (h : hasKey cfg k = true) : hasKey (cfg ++ cfg2) k = true := by
  unfold hasKey at *
  rw [List.any_append, h]
  rfl

theorem not_mem_of_hasKey_false (cfg : Config) (k : String) (v : ConfigValue)
    (h : hasKey cfg k = false) : (k, v) ∉ cfg := by
  intro hm
  unfold hasKey at h
  rw [List.any_eq_false] at h
  have h2 := h _ hm
  simp at h2

theorem lookupKey_mem (cfg : Config) (k : String) (v : ConfigValue)
    (h : lookupKey cfg k = some v) : (k, v) ∈ cfg := by
  unfold lookupKey at h
  split at h
  next p hp =>
    injection h with h2
    have hmem := List.mem_of_find?_eq_some hp
    have hpred := List.find?_some hp
    obtain ⟨p1, p2⟩ := p
    simp at hpred h2
    subst hpred
    subst h2
    exact hmem
  next => cases h

theorem lookupKey_isSome (cfg : Config) (k : String)
    (h : hasKey cfg k = true) : ∃ v, lookupKey cfg k = some v := by
  unfold hasKey at h
  rw [List.any_eq_true] at h
  obtain ⟨p, hp, hpk⟩ := h
  unfold lookupKey
  cases hf : cfg.find? (fun p => p.1 == k) with
  | some q => exact ⟨q.2, rfl⟩
  | none =>
    rw [List.find?_eq_none] at hf
    exact absurd hpk (by simpa using hf p hp)

theorem addDefaults_mem (entries : List SchemaEntry) :
    ∀ cfg k v, (k, v) ∈ addDefaults cfg entries →
      (k, v) ∈ cfg ∨ ∃ e, e ∈ entries ∧ e.key = k ∧ e.dflt = some v := by
  induction entries with
  | nil =>
    intro cfg k v h
    unfold addDefaults at h
    exact Or.inl h
  | cons e rest ih =>
    intro cfg k v h
    unfold addDefaults at h
    split at h
    · rcases ih _ _ _ h with h1 | ⟨e2, he2, hk, hd⟩
      · exact Or.inl h1
      · exact Or.inr ⟨e2, List.mem_cons_of_mem _ he2, hk, hd⟩
    · split at h
      next d hd =>
        rcases ih _ _ _ h with h1 | ⟨e2, he2, hk, hd2⟩
        · rcases List.mem_append.mp h1 with h2 | h2
          · exact Or.inl h2
          · simp only [List.mem_singleton] at h2
            injection h2 with hk0 hv0
            subst hk0
            subst hv0
            exact Or.inr ⟨e, List.mem_cons_self _ _, rfl, hd⟩
        · exact Or.inr ⟨e2, List.mem_cons_of_mem _ he2, hk, hd2⟩
      next hd =>
        rcases ih _ _ _ h with h1 | ⟨e2, he2, hk, hd2⟩
        · exact Or.inl h1
        · exact Or.inr ⟨e2, List.mem_cons_of_mem _ he2, hk, hd2⟩

theorem addDefaults_hasKey_mono (entries : List SchemaEntry) :
    ∀ cfg k, hasKey cfg k = true → hasKey (addDefaults cfg entries) k = true := by
  induction entries with
  | nil =>
    intro cfg k h
    unfold addDefaults
    exact h
  | cons e rest ih =>
    intro cfg k h
    unfold addDefaults
    split
    · exact ih _ _ h
    · split
      next d hd => exact ih _ _ (hasKey_append_left _ _ _ h)
      next hd => exact ih _ _ h

theorem addDefaults_hasKey_dflt (entries : List SchemaEntry) :
    ∀ cfg e d, e ∈ entries → e.dflt = some d →
      hasKey (addDefaults cfg entries) e.key = true := by
  induction entries with
  | nil =>
    intro cfg e d hmem _
    simp at hmem
  | cons e0 rest ih =>
    intro cfg e d hmem hd
    unfold addDefaults
    rcases List.mem_cons.mp hmem with heq0 | hmem2
    · subst heq0
      split
      next hk => exact addDefaults_hasKey_mono rest cfg e.key hk
      next hk =>
        rw [hd]
        apply addDefaults_hasKey_mono
        simp [hasKey]
    · split
      · exact ih _ _ _ hmem2 hd
      · split
        next d0 hd0 => exact ih _ _ _ hmem2 hd
        next hd0 => exact ih _ _ _ hmem2 hd

theorem hasKey_map_fst (cfg : Config) (k : String) :
    hasKey cfg k = (cfg.map Prod.fst).any (fun s => s == k) := by
  induction cfg with
  | nil => rfl
  | cons p rest ih =>
    unfold hasKey at *
    simp only [List.any_cons, List.map_cons, ih]

theorem hasKey_of_map_fst (cfg out : Config) (k : String)
    (h : out.map Prod.fst = cfg.map Prod.fst) :
    hasKey out k = hasKey cfg k := by
  rw [hasKey_map_fst, hasKey_map_fst, h]

theorem CONFIG_SCHEMA_ok_parts (installed : Version) (cfg out : Config)
    (h : CONFIG_SCHEMA installed cfg = Except.ok out) :
    versionBelow installed minEsphomeVersion = false ∧
      ∃ mid, validateKeys streamServerSchema cfg = Except.ok mid ∧
        out = addDefaults mid streamServerSchema := by
  cases hv : versionBelow installed minEsphomeVersion with
  | true =>
    unfold CONFIG_SCHEMA require_esphome_version at h
    rw [hv] at h
    simp at h
  | false =>
    unfold CONFIG_SCHEMA require_esphome_version at h
    rw [hv] at h
    simp only [Bool.false_eq_true, if_false] at h
    unfold schemaValidate at h
    split at h
    · cases h
    next mid heq =>
      injection h with h2
      exact ⟨rfl, mid, heq, h2.symm⟩

theorem find_conf_id :
    streamServerSchema.find? (fun x => x.key == CONF_ID) = some idEntry := by
  rfl

theorem find_conf_port :
    streamServerSchema.find? (fun x => x.key == CONF_PORT) = some portEntry := by
  rfl

theorem find_key_allowed (k : String) (e : SchemaEntry)
    (h : streamServerSchema.find? (fun x => x.key == k) = some e) :
    k = CONF_ID ∨ k = CONF_PORT ∨ k = CONF_SETUP_PRIORITY := by
  have hmem := List.mem_of_find?_eq_some h
  have hpred := List.find?_some h
  simp only [beq_iff_eq] at hpred
  subst hpred
  simp only [streamServerSchema, COMPONENT_SCHEMA, List.mem_cons,
    List.mem_singleton, List.not_mem_nil, or_false] at hmem
  rcases hmem with rfl | rfl | rfl
  · exact Or.inl rfl
  · exact Or.inr (Or.inl rfl)
  · exact Or.inr (Or.inr rfl)

theorem cv_port_ok_inv (v v2 : ConfigValue) (h : cv_port v = Except.ok v2) :
    ∃ n, v = ConfigValue.int n ∧ v2 = ConfigValue.int n ∧ 1 ≤ n ∧ n ≤ 65535 := by
  unfold cv_port at h
  split at h
  next n =>
    split at h
    next hr =>
      injection h with h2
      exact ⟨n, rfl, h2.symm, hr.1, hr.2⟩
    next hr => cases h
  next hv => cases h

theorem cv_declare_id_ok_inv (v v2 : ConfigValue)
    (h : cv_declare_id v = Except.ok v2) :
    ∃ s, v = ConfigValue.str s ∧ v2 = ConfigValue.str s := by
  unfold cv_declare_id at h
  split at h
  next s =>
    injection h with h2
    exact ⟨s, rfl, h2.symm⟩
  next => cases h

theorem schema_out_port (installed : Version) (cfg out : Config) (w : ConfigValue)
    (h : CONFIG_SCHEMA installed cfg = Except.ok out)
    (hm : (CONF_PORT, w) ∈ out) :
    ∃ n, w = ConfigValue.int n ∧ 1 ≤ n ∧ n ≤ 65535 := by
  obtain ⟨hv, mid, hmid, hout⟩ := CONFIG_SCHEMA_ok_parts installed cfg out h
  subst hout
  rcases addDefaults_mem _ _ _ _ hm with hmem | ⟨e, he, hk, hd⟩
  · obtain ⟨e, hfind, v, hval⟩ := validateKeys_out_entry _ _ _ hmid _ _ hmem
    rw [find_conf_port] at hfind
    injection hfind with hfind
    subst hfind
    obtain ⟨n, _, hw, h1, h2⟩ := cv_port_ok_inv v w hval
    exact ⟨n, hw, h1, h2⟩
  · simp only [streamServerSchema, COMPONENT_SCHEMA, List.mem_cons,
      List.mem_singleton, List.not_mem_nil, or_false] at he
    rcases he with rfl | rfl | rfl
    · exact absurd hk (by simp [idEntry, CONF_ID, CONF_PORT])
    · simp only [portEntry, Option.some.injEq] at hd
      exact ⟨6638, hd.symm, by norm_num, by norm_num⟩
    · exact absurd hd (by simp [setupEntry])

theorem schema_out_id (installed : Version) (cfg out : Config) (w : ConfigValue)
    (h : CONFIG_SCHEMA installed cfg = Except.ok out)
    (hm : (CONF_ID, w) ∈ out) :
    ∃ s, w = ConfigValue.str s := by
  obtain ⟨hv, mid, hmid, hout⟩ := CONFIG_SCHEMA_ok_parts installed cfg out h
  subst hout
  rcases addDefaults_mem _ _ _ _ hm with hmem | ⟨e, he, hk, hd⟩
  · obtain ⟨e, hfind, v, hval⟩ := validateKeys_out_entry _ _ _ hmid _ _ hmem
    rw [find_conf_id] at hfind
    injection hfind with hfind
    subst hfind
    obtain ⟨s, _, hw⟩ := cv_declare_id_ok_inv v w hval
    exact ⟨s, hw⟩
  · simp only [streamServerSchema, COMPONENT_SCHEMA, List.mem_cons,
      List.mem_singleton, List.not_mem_nil, or_false] at he
    rcases he with rfl | rfl | rfl
    · simp only [idEntry, Option.some.injEq] at hd
      exact ⟨generatedId, hd.symm⟩
    · exact absurd hk (by simp [portEntry, CONF_ID, CONF_PORT])
    · exact absurd hd (by simp [setupEntry])

theorem schema_out_hasKey (installed : Version) (cfg out : Config)
    (h : CONFIG_SCHEMA installed cfg = Except.ok out) :
    hasKey out CONF_ID = true ∧ hasKey out CONF_PORT = true := by
  obtain ⟨hv, mid, hmid, hout⟩ := CONFIG_SCHEMA_ok_parts installed cfg out h
  subst hout
  constructor
  · exact addDefaults_hasKey_dflt _ _ idEntry _ (by simp [streamServerSchema]) rfl
  · exact addDefaults_hasKey_dflt _ _ portEntry _
      (by simp [streamServerSchema]) rfl

theorem schema_out_lookups (installed : Version) (cfg out : Config)
    (h : CONFIG_SCHEMA installed cfg = Except.ok out) :
    ∃ i p, lookupKey out CONF_ID = some (ConfigValue.str i) ∧
      lookupKey out CONF_PORT = some (ConfigValue.int p) ∧
      1 ≤ p ∧ p ≤ 65535 := by
  obtain ⟨hid, hport⟩ := schema_out_hasKey installed cfg out h
  obtain ⟨vi, hvi⟩ := lookupKey_isSome out CONF_ID hid
  obtain ⟨vp, hvp⟩ := lookupKey_isSome out CONF_PORT hport
  obtain ⟨s, hs⟩ := schema_out_id installed cfg out vi h (lookupKey_mem _ _ _ hvi)
  obtain ⟨n, hn, h1, h2⟩ :=
    schema_out_port installed cfg out vp h (lookupKey_mem _ _ _ hvp)
  subst hs
  subst hn
  exact ⟨s, n, hvi, hvp, h1, h2⟩

theorem schema_out_default_port (installed : Version) (cfg out : Config)
    (hnp : hasKey cfg CONF_PORT = false)
    (h : CONFIG_SCHEMA installed cfg = Except.ok out) :
    lookupKey out CONF_PORT = some (ConfigValue.int 6638) := by
  obtain ⟨hv, mid, hmid, hout⟩ := CONFIG_SCHEMA_ok_parts installed cfg out h
  have hmap := validateKeys_map_fst _ _ _ hmid
  have hmidport : hasKey mid CONF_PORT = false := by
    rw [hasKey_of_map_fst cfg mid CONF_PORT hmap]
    exact hnp
  obtain ⟨hid, hport⟩ := schema_out_hasKey installed cfg out h
  obtain ⟨vp, hvp⟩ := lookupKey_isSome out CONF_PORT hport
  have hmem := lookupKey_mem _ _ _ hvp
  rw [hout] at hmem
  rcases addDefaults_mem _ _ _ _ hmem with hmem2 | ⟨e, he, hk, hd⟩
  · exact absurd hmem2 (not_mem_of_hasKey_false mid CONF_PORT vp hmidport)
  · simp only [streamServerSchema, COMPONENT_SCHEMA, List.mem_cons,
      List.mem_singleton, List.not_mem_nil, or_false] at he
    rcases he with rfl | rfl | rfl
    · exact absurd hk (by simp [idEntry, CONF_ID, CONF_PORT])
    · simp only [portEntry, Option.some.injEq] at hd
      rw [hvp, ← hd]
    · exact absurd hd (by simp [setupEntry])

theorem schema_in_port (installed : Version) (cfg out : Config) (v : ConfigValue)
    (hmem : (CONF_PORT, v) ∈ cfg)
    (h : CONFIG_SCHEMA installed cfg = Except.ok out) :
    ∃ n, v = ConfigValue.int n ∧ 1 ≤ n ∧ n ≤ 65535 := by
  obtain ⟨hv, mid, hmid, hout⟩ := CONFIG_SCHEMA_ok_parts installed cfg out h
  obtain ⟨e, hfind, v2, hval⟩ := validateKeys_mem_entry _ _ _ hmid _ _ hmem
  rw [find_conf_port] at hfind
  injection hfind with hfind
  subst hfind
  obtain ⟨n, hv1, _, h1, h2⟩ := cv_port_ok_inv v v2 hval
  exact ⟨n, hv1, h1, h2⟩

theorem validateKeys_single_port (n : Int) (h1 : 1 ≤ n) (h2 : n ≤ 65535) :
    validateKeys streamServerSchema [(CONF_PORT, ConfigValue.int n)] =
      Except.ok [(CONF_PORT, ConfigValue.int n)] := by
  have hval : portEntry.validate (ConfigValue.int n) =
      Except.ok (ConfigValue.int n) := by
    show cv_port (ConfigValue.int n) = Except.ok (ConfigValue.int n)
    simp only [cv_port]
    rw [if_pos ⟨h1, h2⟩]
  simp only [validateKeys, find_conf_port, hval]

theorem validateAllBlocks_ok (installed : Version) :
    ∀ blocks : List Config,
      (∀ b ∈ blocks, ∃ c, CONFIG_SCHEMA installed b = Except.ok c) →
      ∃ cs, validateAllBlocks installed blocks = Except.ok cs ∧
        cs.length = blocks.length := by
  intro blocks
  induction blocks with
  | nil =>
    intro _
    exact ⟨[], rfl, rfl⟩
  | cons b rest ih =>
    intro h
    obtain ⟨c, hc⟩ := h b (List.mem_cons_self _ _)
    obtain ⟨cs, hcs, hlen⟩ := ih (fun b2 hb2 => h b2 (List.mem_cons_of_mem _ hb2))
    refine ⟨c :: cs, ?_, by simp [hlen]⟩
    simp only [validateAllBlocks, hc, hcs]

theorem clientTick_stream (cap : Nat) (chunk : List Nat) (n : Nat) (c : Client)
    (h : c.outbound.length + chunk.length ≤ cap) :
    (clientTick cap chunk n c).received ++ (clientTick cap chunk n c).outbound =
      c.received ++ c.outbound ++ chunk := by
  simp only [clientTick, flushOutbound, enqueueOutbound]
  have hlen : (c.outbound ++ chunk).length - cap = 0 := by
    rw [List.length_append]
    omega
  rw [hlen, List.drop_zero]
  rw [List.append_assoc (c.received), List.take_append_drop, List.append_assoc]

theorem runClient_stream (cap : Nat) :
    ∀ run c, noOverflow cap run c = true →
      (runClient cap run c).received ++ (runClient cap run c).outbound =
        c.received ++ c.outbound ++ serialStream run := by
  intro run
  induction run with
  | nil =>
    intro c _
    simp [runClient, serialStream]
  | cons t rest ih =>
    intro c h
    obtain ⟨chunk, n⟩ := t
    unfold noOverflow at h
    rw [Bool.and_eq_true] at h
    obtain ⟨h1, h2⟩ := h
    rw [decide_eq_true_eq] at h1
    unfold runClient
    rw [ih _ h2, clientTick_stream cap chunk n c h1]
    simp [serialStream, List.append_assoc]

theorem runBridge_proj (cap N : Nat) :
    ∀ run cs i, runBridge cap N run cs i =
      runClient cap (projectRun N run i) (cs i) := by
  intro run
  induction run with
  | nil =>
    intro cs i
    rfl
  | cons t rest ih =>
    intro cs i
    obtain ⟨chunk, sends⟩ := t
    show runBridge cap N rest (bridgeTick cap N chunk sends cs) i = _
    rw [ih]
    rfl

theorem bridgeSerial_proj (N : Nat) (run : List (List Nat × (Fin N → Nat)))
    (i : Fin N) :
    serialStream (projectRun N run i) = bridgeSerial N run := by
  unfold serialStream bridgeSerial projectRun
  rw [List.map_map]
  rfl

/-
Claim theorems.
-/

/-- C1 counterexample: the configuration with the single key "bogus" omits
the port key, yet CONFIG_SCHEMA rejects it as an unknown key (even on a
sufficient framework version), so it is not the case that validation
succeeds for every configuration that omits the port key. -/
theorem default_port_not_unconditional :
    hasKey [("bogus", ConfigValue.int 0)] CONF_PORT = false ∧
      CONFIG_SCHEMA minEsphomeVersion [("bogus", ConfigValue.int 0)] =
        Except.error (ConfigError.unknownKey "bogus") :=
  ⟨rfl, rfl⟩

/-- C1 (amended): for every configuration that omits the port key, if
CONFIG_SCHEMA validation succeeds on it then the validated configuration's
port equals 6638; and validation does succeed on the empty configuration,
whose validated port equals 6638. -/
theorem default_port_applied :
    (∀ installed cfg out, hasKey cfg CONF_PORT = false →
        CONFIG_SCHEMA installed cfg = Except.ok out →
        lookupKey out CONF_PORT = some (ConfigValue.int 6638)) ∧
      ∃ out, CONFIG_SCHEMA minEsphomeVersion [] = Except.ok out ∧
        lookupKey out CONF_PORT = some (ConfigValue.int 6638) := by
  constructor
  · intro installed cfg out hnp h
    exact schema_out_default_port installed cfg out hnp h
  · exact ⟨addDefaults [] streamServerSchema, rfl, rfl⟩

/-- C1 witness: the amended theorem applied to the concrete empty
configuration at framework version 2022.3.0. -/
theorem default_port_applied_witness :
    lookupKey (addDefaults [] streamServerSchema) CONF_PORT =
      some (ConfigValue.int 6638) :=
  default_port_applied.1 minEsphomeVersion [] (addDefaults [] streamServerSchema)
    rfl rfl

/-- C2: for every validated configuration, to_code emits exactly three
actions, in order: it creates a new component variable under the
configuration's identifier, calls set_port on that variable with the
configuration's port value, and registers the variable as a component. -/
theorem to_code_emits_three_actions (installed : Version) (cfg out : Config)
    (h : CONFIG_SCHEMA installed cfg = Except.ok out) :
    ∃ i p, lookupKey out CONF_ID = some (ConfigValue.str i) ∧
      lookupKey out CONF_PORT = some (ConfigValue.int p) ∧
      to_code out = some [CodegenStep.newPvariable i,
        CodegenStep.addSetPort i p, CodegenStep.registerComponent i] := by
  obtain ⟨i, p, hi, hp, _, _⟩ := schema_out_lookups installed cfg out h
  refine ⟨i, p, hi, hp, ?_⟩
  unfold to_code
  rw [hi, hp]

/-- C2 witness: the theorem applied to the validated empty configuration. -/
theorem to_code_emits_three_actions_witness :
    ∃ i p, lookupKey (addDefaults [] streamServerSchema) CONF_ID =
        some (ConfigValue.str i) ∧
      lookupKey (addDefaults [] streamServerSchema) CONF_PORT =
        some (ConfigValue.int p) ∧
      to_code (addDefaults [] streamServerSchema) =
        some [CodegenStep.newPvariable i, CodegenStep.addSetPort i p,
          CodegenStep.registerComponent i] :=
  to_code_emits_three_actions minEsphomeVersion []
    (addDefaults [] streamServerSchema) rfl

/-- C3: a supplied port value is accepted by CONFIG_SCHEMA only if it is an
integer in 1..65535; an integer port in that range is accepted (on a
sufficient framework version); and a configuration supplying an
out-of-range or non-integer port makes validation return an error at
config time. -/
theorem port_accepted_iff_in_range :
    (∀ installed cfg out v, (CONF_PORT, v) ∈ cfg →
        CONFIG_SCHEMA installed cfg = Except.ok out →
        ∃ n, v = ConfigValue.int n ∧ 1 ≤ n ∧ n ≤ 65535) ∧
      (∀ installed n, 1 ≤ n → n ≤ 65535 →
        versionBelow installed minEsphomeVersion = false →
        ∃ out, CONFIG_SCHEMA installed [(CONF_PORT, ConfigValue.int n)] =
          Except.ok out) ∧
      (∀ installed cfg v, (CONF_PORT, v) ∈ cfg →
        ¬(∃ n, v = ConfigValue.int n ∧ 1 ≤ n ∧ n ≤ 65535) →
        ∃ err, CONFIG_SCHEMA installed cfg = Except.error err) := by
  refine ⟨?_, ?_, ?_⟩
  · intro installed cfg out v hmem h
    exact schema_in_port installed cfg out v hmem h
  · intro installed n h1 h2 hver
    refine ⟨addDefaults [(CONF_PORT, ConfigValue.int n)] streamServerSchema, ?_⟩
    unfold CONFIG_SCHEMA require_esphome_version
    rw [hver]
    simp only [Bool.false_eq_true, if_false, schemaValidate,
      validateKeys_single_port n h1 h2]
  · intro installed cfg v hmem hnot
    cases hres : CONFIG_SCHEMA installed cfg with
    | error err => exact ⟨err, rfl⟩
    | ok out => exact absurd (schema_in_port installed cfg out v hmem hres) hnot

/-- C3 witness: port 80 (an in-range integer) is accepted at framework
version 2022.3.0. -/
theorem port_accepted_iff_in_range_witness :
    ∃ out, CONFIG_SCHEMA minEsphomeVersion
        [(CONF_PORT, ConfigValue.int 80)] = Except.ok out :=
  port_accepted_iff_in_range.2.1 minEsphomeVersion 80 (by decide) (by decide) rfl

/-- C4: CONFIG_SCHEMA accepts a configuration only when the installed
framework version is at least 2022.3.0; on any lower version, validation
returns the version error before the configuration is accepted. -/
theorem version_required (installed : Version) (cfg : Config) :
    (∀ out, CONFIG_SCHEMA installed cfg = Except.ok out →
        versionAtLeast installed minEsphomeVersion) ∧
      (¬ versionAtLeast installed minEsphomeVersion →
        CONFIG_SCHEMA installed cfg =
          Except.error ConfigError.versionTooOld) := by
  constructor
  · intro out h
    exact (versionBelow_false_iff _ _).mp
      (CONFIG_SCHEMA_ok_parts installed cfg out h).1
  · intro hnot
    have hv : versionBelow installed minEsphomeVersion = true := by
      cases hb : versionBelow installed minEsphomeVersion
      · exact absurd ((versionBelow_false_iff _ _).mp hb) hnot
      · rfl
    unfold CONFIG_SCHEMA require_esphome_version
    rw [hv]
    rfl

/-- C4 witness: framework version 2022.2.9 is below the minimum, and the
(otherwise perfectly valid) empty configuration is rejected with the
version error. -/
theorem version_required_witness :
    CONFIG_SCHEMA ⟨2022, 2, 9⟩ [] = Except.error ConfigError.versionTooOld :=
  (version_required ⟨2022, 2, 9⟩ []).2 (by decide)

/-- C5: MULTI_CONF is set, and under it the configuration layer accepts any
number of declared stream_server blocks, each validated independently into
its own configuration (with its own identifier and port). -/
theorem multi_conf_allows_multiple (installed : Version) (blocks : List Config)
    (h : ∀ b ∈ blocks, ∃ c, CONFIG_SCHEMA installed b = Except.ok c) :
    MULTI_CONF = true ∧
      ∃ cs, loadBlocks installed blocks = Except.ok cs ∧
        cs.length = blocks.length := by
  refine ⟨rfl, ?_⟩
  obtain ⟨cs, hcs, hlen⟩ := validateAllBlocks_ok installed blocks h
  refine ⟨cs, ?_, hlen⟩
  unfold loadBlocks
  simp only [MULTI_CONF, Bool.true_or, if_true]
  exact hcs

/-- C5 witness: two concrete blocks with ports 1000 and 2000 are both
accepted in the same image. -/
theorem multi_conf_allows_multiple_witness :
    MULTI_CONF = true ∧
      ∃ cs, loadBlocks minEsphomeVersion
          [[(CONF_PORT, ConfigValue.int 1000)],
            [(CONF_PORT, ConfigValue.int 2000)]] = Except.ok cs ∧
        cs.length = 2 :=
  multi_conf_allows_multiple minEsphomeVersion
    [[(CONF_PORT, ConfigValue.int 1000)], [(CONF_PORT, ConfigValue.int 2000)]]
    (by
      intro b hb
      simp only [List.mem_cons, List.not_mem_nil, or_false] at hb
      rcases hb with rfl | rfl
      · exact ⟨addDefaults [(CONF_PORT, ConfigValue.int 1000)]
          streamServerSchema, rfl⟩
      · exact ⟨addDefaults [(CONF_PORT, ConfigValue.int 2000)]
          streamServerSchema, rfl⟩)

/-- C6: for every validated configuration, to_code calls set_port exactly
once: the emitted action list contains exactly one set_port action among
its three actions, and no other action touches the port or identifier of
the created variable. -/
theorem set_port_exactly_once (installed : Version) (cfg out : Config)
    (h : CONFIG_SCHEMA installed cfg = Except.ok out) :
    ∃ acts, to_code out = some acts ∧
      acts.countP (fun a => a.isSetPort) = 1 ∧ acts.length = 3 := by
  obtain ⟨i, p, hi, hp, _, _⟩ := schema_out_lookups installed cfg out h
  refine ⟨[CodegenStep.newPvariable i, CodegenStep.addSetPort i p,
    CodegenStep.registerComponent i], ?_, rfl, rfl⟩
  unfold to_code
  rw [hi, hp]

/-- C6 witness: the theorem applied to the validated empty configuration. -/
theorem set_port_exactly_once_witness :
    ∃ acts, to_code (addDefaults [] streamServerSchema) = some acts ∧
      acts.countP (fun a => a.isSetPort) = 1 ∧ acts.length = 3 :=
  set_port_exactly_once minEsphomeVersion []
    (addDefaults [] streamServerSchema) rfl

/-- C7: broadcast fidelity of the runtime bridge (modelled from the spec):
over any run in which client i is Active throughout and its outbound queue
never overflows, the bytes delivered to client i followed by its still
queued bytes equal, byte for byte and in order, the byte sequence S read
from the UART; in particular the delivered stream is a prefix of S and
equals S once the queue has drained. -/
theorem broadcast_fidelity (cap N : Nat)
    (run : List (List Nat × (Fin N → Nat))) (i : Fin N)
    (h : noOverflow cap (projectRun N run i) emptyClient = true) :
    (runBridge cap N run (fun _ => emptyClient) i).received ++
        (runBridge cap N run (fun _ => emptyClient) i).outbound =
      bridgeSerial N run ∧
      (runBridge cap N run (fun _ => emptyClient) i).received <+:
        bridgeSerial N run := by
  have hmain : (runBridge cap N run (fun _ => emptyClient) i).received ++
      (runBridge cap N run (fun _ => emptyClient) i).outbound =
        bridgeSerial N run := by
    rw [runBridge_proj]
    have hr := runClient_stream cap (projectRun N run i) emptyClient h
    rw [← bridgeSerial_proj N run i]
    simpa [emptyClient] using hr
  exact ⟨hmain, (runBridge cap N run (fun _ => emptyClient) i).outbound, hmain⟩

/-- C7 witness: the concrete two-client run with serial bytes 1, 2, 3 and
queue capacity 4; client 0 never overflows and its stream equals S. -/
theorem broadcast_fidelity_witness :
    (runBridge 4 2 demoRun (fun _ => emptyClient) 0).received ++
        (runBridge 4 2 demoRun (fun _ => emptyClient) 0).outbound =
      bridgeSerial 2 demoRun ∧
      (runBridge 4 2 demoRun (fun _ => emptyClient) 0).received <+:
        bridgeSerial 2 demoRun :=
  broadcast_fidelity 4 2 demoRun 0 (by decide)

/-- C8: cv.All applies the version check before the key/port schema: on any
installed version below 2022.3.0, validation fails with the version error
for every configuration, valid or not. -/
theorem version_check_first (installed : Version) (cfg : Config)
    (h : versionBelow installed minEsphomeVersion = true) :
    CONFIG_SCHEMA installed cfg = Except.error ConfigError.versionTooOld := by
  unfold CONFIG_SCHEMA require_esphome_version
  rw [h]
  rfl

/-- C8 witness: on version 2021.12.3, even a configuration with an unknown
key and an out-of-range port fails with the version error, not with the
schema errors. -/
theorem version_check_first_witness :
    CONFIG_SCHEMA ⟨2021, 12, 3⟩
        [("bogus", ConfigValue.int 0), (CONF_PORT, ConfigValue.int 99999)] =
      Except.error ConfigError.versionTooOld :=
  version_check_first ⟨2021, 12, 3⟩
    [("bogus", ConfigValue.int 0), (CONF_PORT, ConfigValue.int 99999)]
    (by decide)

/-- C9: CONFIG_SCHEMA accepts only the generated id key, the port key, and
the keys of the standard component schema; a configuration containing any
other key is never accepted. -/
theorem unknown_key_rejected (installed : Version) (cfg : Config)
    (k : String) (v : ConfigValue) (hmem : (k, v) ∈ cfg)
    (hk : ¬(k = CONF_ID ∨ k = CONF_PORT ∨ k = CONF_SETUP_PRIORITY)) :
    ∀ out, CONFIG_SCHEMA installed cfg ≠ Except.ok out := by
  intro out h
  obtain ⟨_, mid, hmid, _⟩ := CONFIG_SCHEMA_ok_parts installed cfg out h
  obtain ⟨e, hfind, _⟩ := validateKeys_mem_entry _ _ _ hmid _ _ hmem
  exact hk (find_key_allowed k e hfind)

/-- C9 witness: a configuration with the foreign key "extra" is rejected. -/
theorem unknown_key_rejected_witness :
    CONFIG_SCHEMA minEsphomeVersion [("extra", ConfigValue.int 1)] ≠
      Except.ok [] :=
  unknown_key_rejected minEsphomeVersion [("extra", ConfigValue.int 1)]
    "extra" (ConfigValue.int 1) (by simp) (by decide) []

/-- C10: declaring the component auto-loads the socket component and
depends on the network component for every configuration: the module-level
constants are consulted independently of the block's options, so no
configuration option can disable either. -/
theorem auto_load_socket_depend_network (cfg : Config) :
    autoLoadFor cfg = ["socket"] ∧ dependenciesFor cfg = ["network"] ∧
      "socket" ∈ AUTO_LOAD ∧ "network" ∈ DEPENDENCIES :=
  ⟨rfl, rfl, by simp [AUTO_LOAD], by simp [DEPENDENCIES]⟩

end StreamServer
